import Mathlib

/-!
Verification of the OllamaBot conversation-context assembly pipeline and
per-guild settings store, shallowly embedded from the Python source
(`src/ollama_bot.py`, `src/utils.py`, `src/settings_manager.py`).

Discord messages are modelled by the fields the pipeline reads: the id,
the creation timestamp (a `Nat`, since only the order matters), whether
the message is of reply type, and the referenced message id (collapsing
`message.reference` / `message.reference.message_id` into one `Option`).
Reference resolution (`reference.resolved or await fetch_message(...)`,
followed by the `isinstance` check) is modelled by an environment
function `Nat → Option DMessage`, where `none` covers every failure mode.
-/

structure DMessage where
  id : Nat
  created_at : Nat
  isReply : Bool
  refId : Option Nat
deriving DecidableEq

/-- Embedding of `utils.reply_history`: walk the reply chain starting from
`message`, yielding each resolved ancestor, stopping silently at the hop
limit, at a non-reply message, at a missing reference, or at a failed
resolution.  The `count >= limit` check is the loop's first test, so the
remaining budget is the recursion fuel. -/
def reply_history (fetch : Nat → Option DMessage) (message : DMessage) : Nat → List DMessage
  | 0 => []
  | limit + 1 =>
    if !message.isReply then []
    else
      match message.refId with
      | none => []
      | some rid =>
        match fetch rid with
        | none => []
        | some resolved => resolved :: reply_history fetch resolved limit

/-- The walk's stopping condition at a current message: not a reply-type
message, no reply reference, or resolution of the reference fails. -/
def walkBreak (fetch : Nat → Option DMessage) (c : DMessage) : Bool :=
  !c.isReply ||
    match c.refId with
    | none => true
    | some rid => (fetch rid).isNone

/-- Embedding of the Python dict-build `{msg.id: msg for msg in msgs}` one
key at a time: overwrite in place when the key is present, append when it
is new (CPython dicts preserve first-insertion order of keys and keep the
last-written value). -/
def dictInsert : List (Nat × DMessage) → Nat → DMessage → List (Nat × DMessage)
  | [], k, v => [(k, v)]
  | (k', v') :: rest, k, v =>
    if k' = k then (k, v) :: rest else (k', v') :: dictInsert rest k v

/-- The dict built from the whole candidate list. -/
def buildDict (msgs : List DMessage) : List (Nat × DMessage) :=
  msgs.foldl (fun d m => dictInsert d m.id m) []

/-- Embedding of `list({msg.id: msg for msg in message_history}.values())`:
drop the keys of the built dict. -/
def dedupById (msgs : List DMessage) : List DMessage :=
  (buildDict msgs).map Prod.snd

/-- Timestamp order used by `message_history.sort(key=lambda msg: msg.created_at)`. -/
def timeLE (a b : DMessage) : Prop :=
  a.created_at ≤ b.created_at

instance : DecidableRel timeLE := fun a b => Nat.decLe a.created_at b.created_at

instance : IsTotal DMessage timeLE :=
  ⟨fun a b => Nat.le_total a.created_at b.created_at⟩

instance : IsTrans DMessage timeLE :=
  ⟨fun _ _ _ hab hbc => Nat.le_trans hab hbc⟩

/-- Embedding of the Python `list.sort` by creation time: a stable sort on
the `created_at` key (insertion sort is stable, like Timsort). -/
def sortByTime (msgs : List DMessage) : List DMessage :=
  List.insertionSort timeLE msgs

/-- Embedding of the assembly steps of `OllamaBot.on_message` (lines
117-123): concatenate reply-chain output, history-window output and the
trigger message, deduplicate by id, then sort by creation time.  This is
the assembled output before the system prompt is prepended. -/
def assemble (replies hist : List DMessage) (trigger : DMessage) : List DMessage :=
  sortByTime (dedupById (replies ++ hist ++ [trigger]))

/-- Maximum length for an inline Discord reply (`MAX_LENGTH` in
`ollama_bot.py`). -/
def MAX_LENGTH : Nat := 2000

/-- The three delivery shapes of the response branch in `on_message`. -/
inductive Delivery where
  | inlineReply (text : String)
  | fileUpload (note : String) (fileContent : String)
  | fixedReply (text : String)
deriving DecidableEq

/-- Embedding of the response-delivery branch of `on_message` (lines
141-149).  `response_text` is `Option String` because the Ollama message
content is optional; Python's `if response_text:` is falsy for both `None`
and the empty string. -/
def deliver : Option String → Delivery
  | none => Delivery.fixedReply "No response generated."
  | some s =>
    if s = "" then Delivery.fixedReply "No response generated."
    else if s.length ≤ MAX_LENGTH then Delivery.inlineReply s
    else Delivery.fileUpload "Response was too long, uploaded as file:" s

/-!
Settings store (`settings_manager.py`).  The `on_change` callback held by
a `GuildSettings` is always either absent (`None`, not callable) or the
manager's `lambda: self.save()`, so it is modelled by a `Bool` recording
whether the hook is installed.  The store state carries the in-memory
mapping (an association list, mirroring the Python dict), the backing
file's content as last written (`none` until a save has happened), and a
counter of `save()` invocations.
-/

structure GuildSettings where
  guild_id : Nat
  system_prompt : String
  model : String
  required_role : Option Nat
  reply_history : Nat
  message_history : Nat
  on_change : Bool
deriving DecidableEq

/-- The dataclass fields, used to name the key of a field assignment. -/
inductive FieldKey where
  | guildId
  | systemPrompt
  | modelName
  | requiredRole
  | replyHistory
  | messageHistory
  | onChange
deriving DecidableEq

/-- A single attribute assignment `settings.<field> = value`. -/
inductive FieldAssign where
  | guildId (v : Nat)
  | systemPrompt (v : String)
  | modelName (v : String)
  | requiredRole (v : Option Nat)
  | replyHistory (v : Nat)
  | messageHistory (v : Nat)
  | onChange (v : Bool)
deriving DecidableEq

def FieldAssign.key : FieldAssign → FieldKey
  | .guildId _ => .guildId
  | .systemPrompt _ => .systemPrompt
  | .modelName _ => .modelName
  | .requiredRole _ => .requiredRole
  | .replyHistory _ => .replyHistory
  | .messageHistory _ => .messageHistory
  | .onChange _ => .onChange

/-- Store the assigned value in the record (the `object.__setattr__` part
of `GuildSettings.__setattr__`, before the hook check). -/
def applyAssign (gs : GuildSettings) : FieldAssign → GuildSettings
  | .guildId v => { gs with guild_id := v }
  | .systemPrompt v => { gs with system_prompt := v }
  | .modelName v => { gs with model := v }
  | .requiredRole v => { gs with required_role := v }
  | .replyHistory v => { gs with reply_history := v }
  | .messageHistory v => { gs with message_history := v }
  | .onChange v => { gs with on_change := v }

/-- The record with every slot still unset: reading `on_change` through
`getattr(self, "on_change", None)` yields `None` (not callable), hence
`false` here; the other components are irrelevant placeholders. -/
def blankGS : GuildSettings :=
  { guild_id := 0, system_prompt := "", model := "", required_role := none,
    reply_history := 0, message_history := 0, on_change := false }

/-- One `__setattr__` step during construction: set the field, then fire
the hook — counted, not executed — when the key is not `on_change` and the
`on_change` slot currently holds a callable. -/
def initStep (p : GuildSettings × Nat) (a : FieldAssign) : GuildSettings × Nat :=
  let gs := applyAssign p.1 a
  (gs, if a.key ≠ FieldKey.onChange ∧ gs.on_change then p.2 + 1 else p.2)

/-- Embedding of the dataclass `__init__`: every field is assigned through
`__setattr__` in declaration order, `on_change` last.  Returns the built
record and how many times the persistence hook fired during construction. -/
def construct (gid : Nat) (sp mo : String) (rr : Option Nat) (rh mh : Nat)
    (hook : Bool) : GuildSettings × Nat :=
  [FieldAssign.guildId gid, FieldAssign.systemPrompt sp, FieldAssign.modelName mo,
   FieldAssign.requiredRole rr, FieldAssign.replyHistory rh,
   FieldAssign.messageHistory mh, FieldAssign.onChange hook].foldl initStep (blankGS, 0)

/-- One guild's object in the backing file: `asdict` with
`GuildSettings.dict_factory`, which drops the `on_change` key and any
`None`-valued field, so an absent `required_role` key is `none` here. -/
structure SerializedGS where
  guild_id : Nat
  system_prompt : String
  model : String
  required_role : Option Nat
  reply_history : Nat
  message_history : Nat
deriving DecidableEq

def serialize (gs : GuildSettings) : SerializedGS :=
  { guild_id := gs.guild_id, system_prompt := gs.system_prompt, model := gs.model,
    required_role := gs.required_role, reply_history := gs.reply_history,
    message_history := gs.message_history }

def serializeAll (l : List (Nat × GuildSettings)) : List (Nat × SerializedGS) :=
  l.map fun p => (p.1, serialize p.2)

/-- Association-list lookup, mirroring `key in self.guild_settings` /
`self.guild_settings[key]`. -/
def lookupGS : List (Nat × GuildSettings) → Nat → Option GuildSettings
  | [], _ => none
  | (k, v) :: rest, key => if k = key then some v else lookupGS rest key

/-- Association-list store, mirroring `self.guild_settings[key] = value`:
replace in place when present, append when new. -/
def insertGS : List (Nat × GuildSettings) → Nat → GuildSettings → List (Nat × GuildSettings)
  | [], k, v => [(k, v)]
  | (k', v') :: rest, k, v =>
    if k' = k then (k, v) :: rest else (k', v') :: insertGS rest k v

structure SMState where
  guild_settings : List (Nat × GuildSettings)
  fileContent : Option (List (Nat × SerializedGS))
  saveCount : Nat
deriving DecidableEq

/-- Embedding of `SettingsManager.save`: serialize the entire mapping to
the backing file (the success path; a write failure is logged and leaves
memory untouched either way) and count the invocation. -/
def SMState.save (sm : SMState) : SMState :=
  { sm with fileContent := some (serializeAll sm.guild_settings),
            saveCount := sm.saveCount + 1 }

/-- Embedding of `SettingsManager.__getitem__`: return the existing entry,
or construct one with defaults and the save hook installed, store it, and
return it.  Any hook firings during construction run `save` that many
times before the insertion completes. -/
def getItem (sm : SMState) (key : Nat) : GuildSettings × SMState :=
  match lookupGS sm.guild_settings key with
  | some gs => (gs, sm)
  | none =>
    let c := construct key "You are a helpful assistant." "llama3" none 10 10 true
    let sm1 := SMState.save^[c.2] sm
    (c.1, { sm1 with guild_settings := insertGS sm1.guild_settings key c.1 })

/-- Embedding of `GuildSettings.__setattr__` on a settings object aliased
by the store at `gid` (the store hands out live references): set the
field, then, when the key is not `on_change` and the object's `on_change`
now holds a callable, run the manager's `save` on the whole store. -/
def setAttr (sm : SMState) (gid : Nat) (a : FieldAssign) : SMState :=
  match lookupGS sm.guild_settings gid with
  | none => sm
  | some gs =>
    let gs1 := applyAssign gs a
    let sm1 := { sm with guild_settings := insertGS sm.guild_settings gid gs1 }
    if a.key ≠ FieldKey.onChange ∧ gs1.on_change then sm1.save else sm1

/-- Rebuild one guild's settings from its file object, as
`GuildSettings(**data, on_change=lambda: self.save())` does: every field
present in the file is passed through, an absent `required_role` falls
back to the dataclass default `none`, and the hook is installed. -/
def deserialize (e : SerializedGS) : GuildSettings × Nat :=
  construct e.guild_id e.system_prompt e.model e.required_role
    e.reply_history e.message_history true

/-- Embedding of the success path of `SettingsManager.load`: for each
parsed file entry, construct the settings (hook firings, were there any,
would save) and store them under the file key via `__setitem__`. -/
def loadOk (sm : SMState) (entries : List (Nat × SerializedGS)) : SMState :=
  entries.foldl
    (fun s p =>
      let c := deserialize p.2
      let s1 := SMState.save^[c.2] s
      { s1 with guild_settings := insertGS s1.guild_settings p.1 c.1 })
    sm

/-- Embedding of the failure path of `SettingsManager.load`: a malformed
file raises after some (possibly empty) run of entries was already
stored, and the `except` handler clears the whole mapping; nothing
propagates to the caller. -/
def loadMalformed (sm : SMState) (parsedRun : List (Nat × SerializedGS)) : SMState :=
  { loadOk sm parsedRun with guild_settings := [] }

/-- Field equality of two settings records, excluding the transient
`on_change` hook. -/
def fieldEq (a b : GuildSettings) : Prop :=
  a.guild_id = b.guild_id ∧ a.system_prompt = b.system_prompt ∧
    a.model = b.model ∧ a.required_role = b.required_role ∧
    a.reply_history = b.reply_history ∧ a.message_history = b.message_history

/-!
Concrete instances used by the scenario theorem and by the witnesses.
-/

/-- Scenario message: plain channel message, earliest. -/
def msg1 : DMessage := ⟨1, 1, false, none⟩

def msg2 : DMessage := ⟨2, 2, false, none⟩

/-- Scenario message: not a reply, target of the chain. -/
def msg3 : DMessage := ⟨3, 3, false, none⟩

/-- Scenario message: a reply to `msg3`. -/
def msg4 : DMessage := ⟨4, 4, true, some 3⟩

/-- Scenario trigger: a reply to `msg4`. -/
def msg5 : DMessage := ⟨5, 5, true, some 4⟩

/-- Resolution environment of the scenario: ids 3 and 4 resolve. -/
def fetchEx : Nat → Option DMessage := fun i =>
  if i = 3 then some msg3 else if i = 4 then some msg4 else none

/-- Resolution environment where every fetch fails. -/
def fetchNone : Nat → Option DMessage := fun _ => none

/-- A non-reply message, used as a trivially stopping walk start. -/
def msgStop : DMessage := ⟨0, 0, false, none⟩

/-- A fresh store: empty mapping, no file written yet. -/
def smEmpty : SMState := ⟨[], none, 0⟩

/-- A sample settings record with the persistence hook installed. -/
def gsEx : GuildSettings := ⟨7, "custom", "llama3", some 5, 3, 4, true⟩

/-!
Lemmas about the dict-based deduplication.
-/

theorem dictInsert_keys (d : List (Nat × DMessage)) (k : Nat) (v : DMessage) (k' : Nat) :
    k' ∈ (dictInsert d k v).map Prod.fst ↔ k' = k ∨ k' ∈ d.map Prod.fst := by
  induction d with
  | nil => simp [dictInsert]
  | cons p rest ih =>
    obtain ⟨pk, pv⟩ := p
    by_cases h : pk = k
    · subst h
      simp [dictInsert]
    · simp only [dictInsert, if_neg h, List.map_cons, List.mem_cons, ih]
      tauto

theorem dictInsert_keys_nodup (d : List (Nat × DMessage)) (k : Nat) (v : DMessage)
    (h : (d.map Prod.fst).Nodup) : ((dictInsert d k v).map Prod.fst).Nodup := by
  induction d with
  | nil => simp [dictInsert]
  | cons p rest ih =>
    obtain ⟨pk, pv⟩ := p
    simp only [List.map_cons, List.nodup_cons] at h
    by_cases hpk : pk = k
    · subst hpk
      simpa [dictInsert] using h
    · simp only [dictInsert, if_neg hpk, List.map_cons, List.nodup_cons]
      refine ⟨?_, ih h.2⟩
      rw [dictInsert_keys]
      push_neg
      exact ⟨hpk, h.1⟩

theorem dictInsert_snd_id (k : Nat) (v : DMessage) (hv : v.id = k) :
    ∀ d : List (Nat × DMessage), (∀ p ∈ d, DMessage.id p.2 = p.1) →
      ∀ p ∈ dictInsert d k v, DMessage.id p.2 = p.1 := by
  intro d
  induction d with
  | nil =>
    intro _ p hp
    simp only [dictInsert, List.mem_singleton] at hp
    subst hp
    exact hv
  | cons q rest ih =>
    obtain ⟨qk, qv⟩ := q
    intro hd p hp
    by_cases hqk : qk = k
    · have he : dictInsert ((qk, qv) :: rest) k v = (k, v) :: rest := by
        simp [dictInsert, hqk]
      rw [he] at hp
      rcases List.mem_cons.mp hp with h1 | h1
      · subst h1
        exact hv
      · exact hd p (List.mem_cons_of_mem _ h1)
    · have he : dictInsert ((qk, qv) :: rest) k v = (qk, qv) :: dictInsert rest k v := by
        simp [dictInsert, hqk]
      rw [he] at hp
      rcases List.mem_cons.mp hp with h1 | h1
      · subst h1
        exact hd (qk, qv) (List.mem_cons_self _ _)
      · exact ih (fun q hq => hd q (List.mem_cons_of_mem _ hq)) p h1

theorem buildDict_keys_aux (msgs : List DMessage) :
    ∀ (d : List (Nat × DMessage)) (k : Nat),
      k ∈ (msgs.foldl (fun d m => dictInsert d m.id m) d).map Prod.fst ↔
        k ∈ d.map Prod.fst ∨ k ∈ msgs.map DMessage.id := by
  induction msgs with
  | nil => simp
  | cons m rest ih =>
    intro d k
    simp only [List.foldl_cons, ih, dictInsert_keys, List.map_cons, List.mem_cons]
    tauto

theorem buildDict_nodup_aux (msgs : List DMessage) :
    ∀ d : List (Nat × DMessage), (d.map Prod.fst).Nodup →
      ((msgs.foldl (fun d m => dictInsert d m.id m) d).map Prod.fst).Nodup := by
  induction msgs with
  | nil => exact fun d h => h
  | cons m rest ih =>
    intro d h
    exact ih _ (dictInsert_keys_nodup d m.id m h)

theorem buildDict_snd_id_aux (msgs : List DMessage) :
    ∀ d : List (Nat × DMessage), (∀ p ∈ d, DMessage.id p.2 = p.1) →
      ∀ p ∈ msgs.foldl (fun d m => dictInsert d m.id m) d, DMessage.id p.2 = p.1 := by
  induction msgs with
  | nil => exact fun d h => h
  | cons m rest ih =>
    intro d h
    exact ih _ (dictInsert_snd_id m.id m rfl d h)

theorem buildDict_keys_nodup (msgs : List DMessage) :
    ((buildDict msgs).map Prod.fst).Nodup :=
  buildDict_nodup_aux msgs [] (by simp)

theorem buildDict_keys_mem (msgs : List DMessage) (k : Nat) :
    k ∈ (buildDict msgs).map Prod.fst ↔ k ∈ msgs.map DMessage.id := by
  rw [buildDict, buildDict_keys_aux msgs [] k]
  simp

theorem dedupById_ids (msgs : List DMessage) :
    (dedupById msgs).map DMessage.id = (buildDict msgs).map Prod.fst := by
  unfold dedupById
  rw [List.map_map]
  exact List.map_congr_left
    (buildDict_snd_id_aux msgs [] (by simp))

theorem assemble_perm_dedup (replies hist : List DMessage) (trigger : DMessage) :
    List.Perm (assemble replies hist trigger) (dedupById (replies ++ hist ++ [trigger])) :=
  List.perm_insertionSort timeLE _

/-- C1: for every collection of candidate messages (reply-chain output,
history-window output, and the trigger message), possibly containing
duplicate ids, the assembled output of the `on_message` pipeline contains
exactly one entry per distinct message id: its id list has no duplicates,
and an id occurs in it exactly when some candidate message carries it. -/
theorem assembled_ids_unique (replies hist : List DMessage) (trigger : DMessage) :
    ((assemble replies hist trigger).map DMessage.id).Nodup ∧
    ∀ i, i ∈ (assemble replies hist trigger).map DMessage.id ↔
      i ∈ (replies ++ hist ++ [trigger]).map DMessage.id := by
  have hmap := (assemble_perm_dedup replies hist trigger).map DMessage.id
  constructor
  · rw [hmap.nodup_iff, dedupById_ids]
    exact buildDict_keys_nodup _
  · intro i
    rw [hmap.mem_iff, dedupById_ids, buildDict_keys_mem]

/-- C2: for every input collection of candidate messages, the assembled
output of the `on_message` pipeline is sorted non-decreasing by message
creation time. -/
theorem assembled_sorted_by_timestamp (replies hist : List DMessage) (trigger : DMessage) :
    (assemble replies hist trigger).Pairwise
      (fun a b => a.created_at ≤ b.created_at) :=
  List.sorted_insertionSort timeLE _

/-- C3: the reply-chain walk yields at most `limit` messages, and yields
strictly fewer whenever a stopping condition — a non-reply message, a
missing reference, or a failed resolution — is met at any walk state
reached before the limit (walk state `j` is the start message for `j = 0`
and the `j`-th yielded message otherwise).  The walk is total: every
failure truncates the list instead of raising. -/
theorem reply_history_bounded (fetch : Nat → Option DMessage) (m : DMessage) (limit : Nat) :
    (reply_history fetch m limit).length ≤ limit ∧
    ∀ j c, j < limit → (m :: reply_history fetch m limit)[j]? = some c →
      walkBreak fetch c = true → (reply_history fetch m limit).length < limit := by
  induction limit generalizing m with
  | zero =>
    exact ⟨Nat.le_refl 0, fun j c hj _ _ => absurd hj (Nat.not_lt_zero j)⟩
  | succ n ih =>
    by_cases hr : m.isReply
    · cases hrid : m.refId with
      | none =>
        have hunf : reply_history fetch m (n + 1) = [] := by
          simp [reply_history, hr, hrid]
        rw [hunf]
        exact ⟨Nat.zero_le _, fun _ _ _ _ _ => Nat.succ_pos n⟩
      | some rid =>
        cases hf : fetch rid with
        | none =>
          have hunf : reply_history fetch m (n + 1) = [] := by
            simp [reply_history, hr, hrid, hf]
          rw [hunf]
          exact ⟨Nat.zero_le _, fun _ _ _ _ _ => Nat.succ_pos n⟩
        | some r =>
          have hunf : reply_history fetch m (n + 1) = r :: reply_history fetch r n := by
            simp [reply_history, hr, hrid, hf]
          rw [hunf]
          refine ⟨by simpa using Nat.succ_le_succ (ih r).1, ?_⟩
          intro j c hj hget hbl
          match j with
          | 0 =>
            rw [List.getElem?_cons_zero] at hget
            have hc : c = m := (Option.some.injEq _ _).mp hget.symm
            subst hc
            simp [walkBreak, hr, hrid, hf] at hbl
          | j' + 1 =>
            rw [List.getElem?_cons_succ] at hget
            have hlt := (ih r).2 j' c (Nat.lt_of_succ_lt_succ hj) hget hbl
            simpa using Nat.succ_lt_succ hlt
    · have hunf : reply_history fetch m (n + 1) = [] := by
        simp [reply_history, hr]
      rw [hunf]
      exact ⟨Nat.zero_le _, fun _ _ _ _ _ => Nat.succ_pos n⟩

/-- Witness for C3: with a non-reply start message the stopping condition
holds at walk state 0, so the walk of limit 1 yields fewer than 1 message. -/
theorem reply_history_bounded_witness :
    (reply_history fetchNone msgStop 1).length < 1 :=
  (reply_history_bounded fetchNone msgStop 1).2 0 msgStop (by decide)
    (by rfl) (by decide)

/-- C4: scenario with `replyHistoryLimit = 2` — the trigger `msg5` replies
to `msg4` (itself a reply) which replies to `msg3` (not a reply); the
history window returns `[msg1, msg2, msg3]`; timestamps increase with the
ids.  The assembled output, before the system prompt is prepended, has id
order `[1, 2, 3, 4, 5]`. -/
theorem scenario_reply_chain_merge :
    (assemble (reply_history fetchEx msg5 2) [msg1, msg2, msg3] msg5).map DMessage.id
      = [1, 2, 3, 4, 5] := by
  decide

/-!
Lemmas about the settings store.
-/

theorem construct_eq (gid : Nat) (sp mo : String) (rr : Option Nat) (rh mh : Nat)
    (hook : Bool) :
    construct gid sp mo rr rh mh hook =
      ({ guild_id := gid, system_prompt := sp, model := mo, required_role := rr,
         reply_history := rh, message_history := mh, on_change := hook }, 0) := rfl

theorem lookupGS_insert_self (l : List (Nat × GuildSettings)) (k : Nat) (v : GuildSettings) :
    lookupGS (insertGS l k v) k = some v := by
  induction l with
  | nil => simp [insertGS, lookupGS]
  | cons p rest ih =>
    obtain ⟨pk, pv⟩ := p
    by_cases h : pk = k
    · simp [insertGS, lookupGS, h]
    · simp [insertGS, lookupGS, h, ih]

theorem lookupGS_mem (l : List (Nat × GuildSettings)) (k : Nat) (v : GuildSettings)
    (h : lookupGS l k = some v) : (k, v) ∈ l := by
  induction l with
  | nil => simp [lookupGS] at h
  | cons p rest ih =>
    obtain ⟨pk, pv⟩ := p
    by_cases hk : pk = k
    · subst hk
      have hv : pv = v := by simpa [lookupGS] using h
      subst hv
      exact List.mem_cons_self _ _
    · simp only [lookupGS, if_neg hk] at h
      exact List.mem_cons_of_mem _ (ih h)

theorem getItem_saveCount (sm : SMState) (key : Nat) :
    (getItem sm key).2.saveCount = sm.saveCount := by
  cases h : lookupGS sm.guild_settings key with
  | some gs => simp [getItem, h]
  | none => simp [getItem, h, construct_eq]

theorem getItem_fileContent (sm : SMState) (key : Nat) :
    (getItem sm key).2.fileContent = sm.fileContent := by
  cases h : lookupGS sm.guild_settings key with
  | some gs => simp [getItem, h]
  | none => simp [getItem, h, construct_eq]

theorem getItem_lookup (sm : SMState) (key : Nat) :
    lookupGS (getItem sm key).2.guild_settings key = some (getItem sm key).1 := by
  cases h : lookupGS sm.guild_settings key with
  | some gs => simp [getItem, h]
  | none => simp [getItem, h, construct_eq, lookupGS_insert_self]

theorem getItem_hook (sm : SMState) (key : Nat)
    (h : ∀ p ∈ sm.guild_settings, p.2.on_change = true) :
    (getItem sm key).1.on_change = true := by
  cases hl : lookupGS sm.guild_settings key with
  | some gs =>
    have := h (key, gs) (lookupGS_mem _ _ _ hl)
    simpa [getItem, hl] using this
  | none => simp [getItem, hl, construct_eq]

theorem applyAssign_on_change (gs : GuildSettings) (a : FieldAssign)
    (h : a.key ≠ FieldKey.onChange) :
    (applyAssign gs a).on_change = gs.on_change := by
  cases a with
  | guildId v => rfl
  | systemPrompt v => rfl
  | modelName v => rfl
  | requiredRole v => rfl
  | replyHistory v => rfl
  | messageHistory v => rfl
  | onChange v => exact absurd rfl h

/-- C5: a field assignment (any field other than the persistence hook
itself) on a settings object returned by the store's lookup synchronously
triggers exactly one `save()` of the entire store: the save counter grows
by exactly one and the backing file receives the serialization of every
guild's settings, not only the mutated guild's.  The hypothesis is the
store invariant that every stored entry carries the persistence hook,
which holds in the program because entries are only created by
`__getitem__` and `load`, both of which install it. -/
theorem setattr_write_through (sm : SMState) (gid : Nat) (a : FieldAssign)
    (hhook : ∀ p ∈ sm.guild_settings, p.2.on_change = true)
    (hkey : a.key ≠ FieldKey.onChange) :
    (setAttr (getItem sm gid).2 gid a).saveCount = (getItem sm gid).2.saveCount + 1 ∧
    (setAttr (getItem sm gid).2 gid a).fileContent =
      some (serializeAll (setAttr (getItem sm gid).2 gid a).guild_settings) := by
  have hl := getItem_lookup sm gid
  have hc := getItem_hook sm gid hhook
  have hcc : (applyAssign (getItem sm gid).1 a).on_change = true := by
    rw [applyAssign_on_change _ _ hkey]
    exact hc
  constructor <;> simp [setAttr, hl, hkey, hcc, SMState.save]

/-- Witness for C5: on a fresh store, looking up guild 1 and assigning its
system prompt bumps the save counter by one and rewrites the whole file. -/
theorem setattr_write_through_witness :
    (setAttr (getItem smEmpty 1).2 1 (FieldAssign.systemPrompt "x")).saveCount
        = (getItem smEmpty 1).2.saveCount + 1 ∧
      (setAttr (getItem smEmpty 1).2 1 (FieldAssign.systemPrompt "x")).fileContent
        = some (serializeAll
            (setAttr (getItem smEmpty 1).2 1 (FieldAssign.systemPrompt "x")).guild_settings) :=
  setattr_write_through smEmpty 1 (FieldAssign.systemPrompt "x")
    (by simp [smEmpty]) (by decide)

theorem deserialize_eq (e : SerializedGS) :
    deserialize e =
      ({ guild_id := e.guild_id, system_prompt := e.system_prompt, model := e.model,
         required_role := e.required_role, reply_history := e.reply_history,
         message_history := e.message_history, on_change := true }, 0) := rfl

theorem loadOk_cons (sm : SMState) (e : Nat × SerializedGS)
    (rest : List (Nat × SerializedGS)) :
    loadOk sm (e :: rest) =
      loadOk { sm with guild_settings := insertGS sm.guild_settings e.1 (deserialize e.2).1 }
        rest := by
  simp only [loadOk, List.foldl_cons, deserialize_eq, Function.iterate_zero, id]

theorem loadOk_saveCount (entries : List (Nat × SerializedGS)) :
    ∀ sm : SMState, (loadOk sm entries).saveCount = sm.saveCount := by
  induction entries with
  | nil => intro sm; rfl
  | cons e rest ih =>
    intro sm
    rw [loadOk_cons]
    exact ih _

theorem loadOk_fileContent (entries : List (Nat × SerializedGS)) :
    ∀ sm : SMState, (loadOk sm entries).fileContent = sm.fileContent := by
  induction entries with
  | nil => intro sm; rfl
  | cons e rest ih =>
    intro sm
    rw [loadOk_cons]
    exact ih _

theorem loadOk_settings (entries : List (Nat × SerializedGS)) :
    ∀ sm : SMState, (loadOk sm entries).guild_settings =
      entries.foldl (fun acc p => insertGS acc p.1 (deserialize p.2).1) sm.guild_settings := by
  induction entries with
  | nil => intro sm; rfl
  | cons e rest ih =>
    intro sm
    rw [loadOk_cons, List.foldl_cons]
    exact ih _

/-- C9: constructing a `GuildSettings` never fires the persistence hook —
during the dataclass `__init__` the `on_change` slot is still unset when
the other fields are assigned, and the assignment of `on_change` itself is
excluded by `__setattr__` — so neither the lazy creation of an unseen
guild id in a lookup nor `load()` saves or writes the backing file. -/
theorem construction_never_saves (gid : Nat) (sp mo : String) (rr : Option Nat)
    (rh mh : Nat) (hook : Bool) (sm sm' : SMState) (key : Nat)
    (entries : List (Nat × SerializedGS)) :
    (construct gid sp mo rr rh mh hook).2 = 0 ∧
    (getItem sm key).2.saveCount = sm.saveCount ∧
    (getItem sm key).2.fileContent = sm.fileContent ∧
    (loadOk sm' entries).saveCount = sm'.saveCount ∧
    (loadOk sm' entries).fileContent = sm'.fileContent :=
  ⟨by rw [construct_eq], getItem_saveCount sm key, getItem_fileContent sm key,
    loadOk_saveCount entries sm', loadOk_fileContent entries sm'⟩

/-- C7: a malformed backing file — a parse failure or a schema violation
hit after any partially stored run of entries — leaves the store empty
(the partial entries are cleared, nothing propagates to the caller), and a
subsequent lookup of any guild id returns a settings object with all the
defaults: the default system prompt, the default model, no required role,
and both history limits 10. -/
theorem malformed_load_resets (sm : SMState) (parsedRun : List (Nat × SerializedGS))
    (gid : Nat) :
    (loadMalformed sm parsedRun).guild_settings = [] ∧
    (getItem (loadMalformed sm parsedRun) gid).1.system_prompt
        = "You are a helpful assistant." ∧
    (getItem (loadMalformed sm parsedRun) gid).1.model = "llama3" ∧
    (getItem (loadMalformed sm parsedRun) gid).1.required_role = none ∧
    (getItem (loadMalformed sm parsedRun) gid).1.reply_history = 10 ∧
    (getItem (loadMalformed sm parsedRun) gid).1.message_history = 10 := by
  have h1 : (loadMalformed sm parsedRun).guild_settings = [] := rfl
  have hl : lookupGS (loadMalformed sm parsedRun).guild_settings gid = none := by
    rw [h1]
    rfl
  refine ⟨h1, ?_, ?_, ?_, ?_, ?_⟩ <;> simp [getItem, hl, construct_eq]

theorem insertGS_fresh (k : Nat) (v : GuildSettings) :
    ∀ l : List (Nat × GuildSettings), k ∉ l.map Prod.fst →
      insertGS l k v = l ++ [(k, v)] := by
  intro l
  induction l with
  | nil => intro _; rfl
  | cons p rest ih =>
    obtain ⟨pk, pv⟩ := p
    intro h
    simp only [List.map_cons, List.mem_cons] at h
    push_neg at h
    have hne : ¬ pk = k := fun hh => h.1 hh.symm
    simp [insertGS, hne, ih h.2]

theorem foldl_insert_fresh :
    ∀ (entries : List (Nat × SerializedGS)) (acc : List (Nat × GuildSettings)),
      (entries.map Prod.fst).Nodup →
      (∀ k, k ∈ entries.map Prod.fst → k ∉ acc.map Prod.fst) →
      entries.foldl (fun acc p => insertGS acc p.1 (deserialize p.2).1) acc
        = acc ++ entries.map (fun p => (p.1, (deserialize p.2).1)) := by
  intro entries
  induction entries with
  | nil =>
    intro acc _ _
    simp
  | cons e rest ih =>
    intro acc hnd hdisj
    simp only [List.map_cons, List.nodup_cons] at hnd
    rw [List.foldl_cons,
      insertGS_fresh e.1 _ acc (hdisj e.1 (by simp)),
      ih (acc ++ [(e.1, (deserialize e.2).1)]) hnd.2 ?_]
    · simp
    · intro k hk
      simp only [List.map_append, List.mem_append]
      push_neg
      refine ⟨hdisj k (by simp [hk]), ?_⟩
      simp only [List.map_cons, List.map_nil, List.mem_singleton]
      intro hkk
      exact hnd.1 (hkk ▸ hk)

theorem forall2_roundtrip (l : List (Nat × GuildSettings)) :
    List.Forall₂ (fun p q => p.1 = q.1 ∧ fieldEq p.2 q.2) l
      (l.map fun p => (p.1, (deserialize (serialize p.2)).1)) := by
  induction l with
  | nil => exact List.Forall₂.nil
  | cons p rest ih =>
    refine List.Forall₂.cons ⟨rfl, ?_⟩ ih
    simp [deserialize_eq, serialize, fieldEq]

/-- C6: `save()` serializes every guild's settings to the backing file
(dropping the hook and `None`-valued optional fields), and a fresh
`load()` of that file into an empty store reconstructs a mapping with the
same guild ids, each guild's settings field-equal to the original —
system prompt, model, required role, both history limits and the guild id
— excluding the transient hook.  The hypothesis records that the store's
keys are distinct, which the Python dict guarantees. -/
theorem save_load_roundtrip (sm : SMState) (freshFile : Option (List (Nat × SerializedGS)))
    (freshCount : Nat) (hnd : (sm.guild_settings.map Prod.fst).Nodup) :
    (SMState.save sm).fileContent = some (serializeAll sm.guild_settings) ∧
    List.Forall₂ (fun p q => p.1 = q.1 ∧ fieldEq p.2 q.2) sm.guild_settings
      (loadOk ⟨[], freshFile, freshCount⟩ (serializeAll sm.guild_settings)).guild_settings := by
  refine ⟨rfl, ?_⟩
  rw [loadOk_settings]
  rw [foldl_insert_fresh _ _ ?_ ?_]
  · simp only [List.nil_append, serializeAll, List.map_map]
    have he : ((fun p => (p.1, (deserialize p.2).1)) ∘
        fun p : Nat × GuildSettings => (p.1, serialize p.2))
        = fun p : Nat × GuildSettings => (p.1, (deserialize (serialize p.2)).1) := rfl
    rw [he]
    exact forall2_roundtrip sm.guild_settings
  · have he : (serializeAll sm.guild_settings).map Prod.fst
        = sm.guild_settings.map Prod.fst := by
      simp [serializeAll, List.map_map, Function.comp]
    rw [he]
    exact hnd
  · intro k _ hk
    simp at hk

/-- Witness for C6: a one-guild store saves and reloads to a field-equal
mapping. -/
theorem save_load_roundtrip_witness :
    (SMState.save ⟨[(7, gsEx)], none, 0⟩).fileContent
        = some (serializeAll [(7, gsEx)]) ∧
      List.Forall₂ (fun p q => p.1 = q.1 ∧ fieldEq p.2 q.2) [(7, gsEx)]
        (loadOk ⟨[], none, 0⟩ (serializeAll [(7, gsEx)])).guild_settings :=
  save_load_roundtrip ⟨[(7, gsEx)], none, 0⟩ none 0 (by simp)

/-- C8 counterexample: the empty string is a response text of length at
most 2000 (length zero), yet the delivery branch does not produce an
inline reply of it — `if response_text:` sends the code to the fixed
"No response generated." reply instead. -/
theorem deliver_empty_not_inline :
    ("" : String).length ≤ 2000 ∧
    deliver (some "") = Delivery.fixedReply "No response generated." ∧
    deliver (some "") ≠ Delivery.inlineReply "" := by
  exact ⟨by decide, rfl, by decide⟩

/-- C8 (amended): for every non-empty model response text, the delivery
branch is an exact pure function of its length with threshold 2000 —
length at most 2000 is delivered as an inline reply, length above 2000 as
an attached file — and the boundary is exact: a 2000-character text goes
inline and a 2001-character text goes to a file.  (The empty text instead
takes the fixed no-response reply.) -/
theorem deliver_threshold (s : String) (h : s ≠ "") :
    (deliver (some s) = Delivery.inlineReply s ↔ s.length ≤ 2000) ∧
    (deliver (some s)
        = Delivery.fileUpload "Response was too long, uploaded as file:" s
      ↔ 2000 < s.length) ∧
    deliver (some (String.mk (List.replicate 2000 'a')))
      = Delivery.inlineReply (String.mk (List.replicate 2000 'a')) ∧
    deliver (some (String.mk (List.replicate 2001 'a')))
      = Delivery.fileUpload "Response was too long, uploaded as file:"
          (String.mk (List.replicate 2001 'a')) := by
  have main : ∀ t : String, t ≠ "" →
      (deliver (some t) = Delivery.inlineReply t ↔ t.length ≤ 2000) ∧
      (deliver (some t)
          = Delivery.fileUpload "Response was too long, uploaded as file:" t
        ↔ 2000 < t.length) := by
    intro t ht
    have hd : deliver (some t)
        = if t.length ≤ MAX_LENGTH then Delivery.inlineReply t
          else Delivery.fileUpload "Response was too long, uploaded as file:" t := by
      simp [deliver, ht]
    by_cases hl : t.length ≤ MAX_LENGTH
    · have hl' : t.length ≤ 2000 := hl
      rw [hd, if_pos hl]
      constructor
      · simp [hl']
      · simp
        omega
    · have hl' : 2000 < t.length := Nat.lt_of_not_le hl
      rw [hd, if_neg hl]
      constructor
      · simp
        omega
      · simp [hl']
  have len2000 : (String.mk (List.replicate 2000 'a')).length = 2000 := by
    rw [show (String.mk (List.replicate 2000 'a')).length
        = (List.replicate 2000 'a').length from rfl]
    exact List.length_replicate 2000 'a'
  have len2001 : (String.mk (List.replicate 2001 'a')).length = 2001 := by
    rw [show (String.mk (List.replicate 2001 'a')).length
        = (List.replicate 2001 'a').length from rfl]
    exact List.length_replicate 2001 'a'
  have hne2000 : String.mk (List.replicate 2000 'a') ≠ "" := by
    intro he
    rw [he] at len2000
    exact absurd len2000 (by decide)
  have hne2001 : String.mk (List.replicate 2001 'a') ≠ "" := by
    intro he
    rw [he] at len2001
    exact absurd len2001 (by decide)
  refine ⟨(main s h).1, (main s h).2, ?_, ?_⟩
  · exact (main _ hne2000).1.mpr (by rw [len2000])
  · exact (main _ hne2001).2.mpr (by rw [len2001]; decide)

/-- Witness for C8 (amended): a one-character response is delivered as an
inline reply. -/
theorem deliver_threshold_witness :
    deliver (some "a") = Delivery.inlineReply "a" :=
  (deliver_threshold "a" (by decide)).1.mpr (by decide)

/-- C10: a missing or empty model response text is answered with the fixed
reply "No response generated." and is never delivered inline or as a file;
the inline/file delivery branch applies exactly to the non-empty response
texts. -/
theorem empty_response_fixed (s : String) (h : s ≠ "") :
    deliver none = Delivery.fixedReply "No response generated." ∧
    deliver (some "") = Delivery.fixedReply "No response generated." ∧
    (deliver (some s) = Delivery.inlineReply s ∨
      deliver (some s)
        = Delivery.fileUpload "Response was too long, uploaded as file:" s) := by
  refine ⟨rfl, rfl, ?_⟩
  by_cases hl : s.length ≤ MAX_LENGTH
  · exact Or.inl (by simp [deliver, h, hl])
  · exact Or.inr (by simp [deliver, h, hl])

/-- Witness for C10: a short non-empty response takes the inline branch,
not the fixed no-response reply. -/
theorem empty_response_fixed_witness :
    deliver none = Delivery.fixedReply "No response generated." ∧
    deliver (some "") = Delivery.fixedReply "No response generated." ∧
    (deliver (some "hi") = Delivery.inlineReply "hi" ∨
      deliver (some "hi")
        = Delivery.fileUpload "Response was too long, uploaded as file:" "hi") :=
  empty_response_fixed "hi" (by decide)
